import Mathlib

/-!
Verification of the nearbyindex geospatial scoring engine and heatmap batch
pipeline.

Part A embeds the pure per-category scoring math shared by
`src/apps/web/lib/score/engine.ts` (`calculateSimpleScore`) and
`src/apps/web/lib/jobs/batch-score-calculator.ts` (`calculateCategoryScore`,
`compressScore`) over the real numbers; JavaScript `Math.round` is the
round-half-up `round : ℝ → ℤ`, `Math.min`/`Math.max` are `min`/`max`.

Part B embeds the grid generation and the heatmap chunk processor of
`src/apps/web/lib/jobs/heatmap-processor.ts` over the rationals (all the
arithmetic there — snapping, stepping, rounding to five decimals — is rational),
and the job scheduler of the jobs module (`scheduleHeatmapJob`,
`scheduleRegionalHeatmapJob`) as a state machine over an in-memory jobs table.
-/

/-- Category configuration record, from `CategoryDefinition` in
`src/apps/web/lib/score/types.ts`. The optional `subTypes` list is omitted:
none of the embedded functions reads it (the heatmap categories have none).
`overpassTags` is omitted as well: it only drives the POI provider query. -/
structure CategoryDefinition where
  id : String
  weight : ℝ
  radius : ℝ
  minCount : ℕ
  maxCount : ℕ
  saturationK : Option ℝ

/-- Static category table from `categories` in the score module
(the file defining the eight canonical categories). -/
def categories : List CategoryDefinition :=
  [⟨"groceries", 1.5, 800, 1, 10, none⟩,
   ⟨"restaurants", 1.0, 600, 3, 25, none⟩,
   ⟨"transit", 1.5, 500, 1, 8, none⟩,
   ⟨"healthcare", 1.2, 1500, 1, 6, none⟩,
   ⟨"education", 1.0, 1200, 1, 5, none⟩,
   ⟨"parks", 1.0, 800, 1, 5, none⟩,
   ⟨"shopping", 0.8, 800, 2, 15, none⟩,
   ⟨"entertainment", 0.6, 1200, 1, 8, none⟩]

/-- The groceries entry of the static category table. -/
def groceriesDef : CategoryDefinition := ⟨"groceries", 1.5, 800, 1, 10, none⟩

/-- The restaurants entry of the static category table. -/
def restaurantsDef : CategoryDefinition := ⟨"restaurants", 1.0, 600, 3, 25, none⟩

/-- Logarithmic count score, `(60 * Math.log(1 + count * k)) / logMax` with
`logMax = Math.log(1 + maxCount * k)`; identical lines appear in
`calculateSimpleScore` (engine.ts) and `calculateCategoryScore`
(batch-score-calculator.ts). -/
noncomputable def countScore (count maxCount : ℕ) (k : ℝ) : ℝ :=
  60 * Real.log (1 + count * k) / Real.log (1 + maxCount * k)

/-- Distance score, `25 * Math.max(0, 1 - nearestDistance / closeThreshold)`
with `closeThreshold = Math.min(400, radius * 0.4)`; identical lines appear in
engine.ts and batch-score-calculator.ts. -/
noncomputable def distanceScore (nearestDistance radius : ℝ) : ℝ :=
  25 * max 0 (1 - nearestDistance / min 400 (radius * 0.4))

/-- Distance score of engine.ts `calculateSimpleScore`, where
`nearestDistance` may be `null` (then the distance score stays 0). -/
noncomputable def engineDistanceScore (nearestDistance : Option ℝ) (radius : ℝ) : ℝ :=
  match nearestDistance with
  | some d => distanceScore d radius
  | none => 0

/-- Density bonus: `if (count > maxCount) 15 * Math.min(1, Math.log(1 + excess)
/ Math.log(1 + maxCount * 2))` with `excess = count - maxCount`; identical in
engine.ts and batch-score-calculator.ts. -/
noncomputable def densityBonus (count maxCount : ℕ) : ℝ :=
  if maxCount < count then
    15 * min 1 (Real.log (1 + ((count : ℝ) - maxCount)) / Real.log (1 + (maxCount : ℝ) * 2))
  else 0

/-- Engine per-category score for categories without sub-types:
`calculateSimpleScore` of `src/apps/web/lib/score/engine.ts` lines 175-209. -/
noncomputable def calculateSimpleScore (count maxCount : ℕ) (saturationK : ℝ)
    (nearestDistance : Option ℝ) (radius : ℝ) (minCount : ℕ) : ℝ :=
  if count < minCount then
    ((round ((countScore count maxCount saturationK
        + engineDistanceScore nearestDistance radius) * 0.4) : ℤ) : ℝ)
  else
    min 100 ((round (countScore count maxCount saturationK
        + engineDistanceScore nearestDistance radius + densityBonus count maxCount) : ℤ) : ℝ)

/-- Scoring core of `calculateCategoryScore` in
`src/apps/web/lib/jobs/batch-score-calculator.ts` (lines 179-206): the part of
the function after the spatial shortlist, taking the POI count within the
radius and the nearest distance it computed. `k` defaults to 0.5 when the
config has no `saturationK` (`categoryConfig.saturationK ?? 0.5`). Note the
main branch returns the raw score uncompressed and uncapped (source comment:
"Don't compress or cap here"). -/
noncomputable def batchCategoryScoreCore (cfg : CategoryDefinition)
    (count : ℕ) (nearestDistance : ℝ) : ℝ :=
  if count = 0 then 0
  else if count < cfg.minCount then
    ((round ((countScore count cfg.maxCount (cfg.saturationK.getD 0.5)
        + distanceScore nearestDistance cfg.radius) * 0.4) : ℤ) : ℝ)
  else
    countScore count cfg.maxCount (cfg.saturationK.getD 0.5)
      + distanceScore nearestDistance cfg.radius
      + densityBonus count cfg.maxCount

/-- Score compression of the batch/heatmap path, `compressScore` in
`src/apps/web/lib/jobs/batch-score-calculator.ts` lines 140-144:
values at most 60 pass through, larger raw scores are squashed with
`60 + 40*(1 - e^(-(raw-60)/50))`, rounded, and capped at 100. -/
noncomputable def compressScore (rawScore : ℝ) : ℝ :=
  if rawScore ≤ 60 then rawScore
  else min 100 ((round (60 + 40 * (1 - Real.exp (-(rawScore - 60) / 50))) : ℤ) : ℝ)

/-! Helper lemmas about `round` (round half up, as JavaScript `Math.round`). -/

/-- A value strictly inside `[z - 1/2, z + 1/2)` rounds to `z`. -/
theorem round_eq_int_of_bounds {α : Type} [LinearOrderedField α] [FloorRing α]
    {x : α} {z : ℤ} (h1 : (z : α) - 1/2 ≤ x) (h2 : x < (z : α) + 1/2) :
    round x = z := by
  rw [round_eq, Int.floor_eq_iff]
  constructor
  · linarith
  · linarith

/-- Rounding a nonnegative value is nonnegative. -/
theorem round_nonneg_of_nonneg {α : Type} [LinearOrderedField α] [FloorRing α]
    {x : α} (h : 0 ≤ x) : (0 : ℤ) ≤ round x := by
  rw [round_eq]
  exact Int.le_floor.mpr (by push_cast; linarith)

/-- Rounding a value below `z + 1/2` gives at most `z`. -/
theorem round_le_int_of_lt {α : Type} [LinearOrderedField α] [FloorRing α]
    {x : α} {z : ℤ} (h : x < (z : α) + 1/2) : round x ≤ z := by
  rw [round_eq]
  rw [Int.floor_le_iff]
  linarith

/-! Numeric bounds on the exponentials used by `compressScore`, from the
Taylor remainder bound `Real.exp_bound`. -/

theorem exp_neg_08_bounds : (0.448 : ℝ) < Real.exp (-(4/5)) ∧ Real.exp (-(4/5)) < 0.456 := by
  have h := Real.exp_bound (x := -(4/5)) (by rw [abs_of_nonpos] <;> norm_num) (n := 5) (by norm_num)
  rw [abs_le] at h
  obtain ⟨h1, h2⟩ := h
  have hS : ∑ m ∈ Finset.range 5, (-(4/5) : ℝ) ^ m / m.factorial = 847/1875 := by
    simp [Finset.sum_range_succ, Nat.factorial]
    norm_num
  rw [hS] at h1 h2
  rw [abs_of_nonpos (by norm_num : (-(4/5) : ℝ) ≤ 0)] at h1 h2
  norm_num [Nat.factorial] at h1 h2
  constructor <;> linarith

theorem exp_neg_044_bounds : (0.643 : ℝ) < Real.exp (-(11/25)) ∧ Real.exp (-(11/25)) < 0.645 := by
  have h := Real.exp_bound (x := -(11/25)) (by rw [abs_of_nonpos] <;> norm_num) (n := 5) (by norm_num)
  rw [abs_le] at h
  obtain ⟨h1, h2⟩ := h
  have hS : ∑ m ∈ Finset.range 5, (-(11/25) : ℝ) ^ m / m.factorial = 6039041/9375000 := by
    simp [Finset.sum_range_succ, Nat.factorial]
    norm_num
  rw [hS] at h1 h2
  rw [abs_of_nonpos (by norm_num : (-(11/25) : ℝ) ≤ 0)] at h1 h2
  norm_num [Nat.factorial] at h1 h2
  constructor <;> linarith

theorem exp_neg_004_bounds : (0.9607 : ℝ) < Real.exp (-(1/25)) ∧ Real.exp (-(1/25)) < 0.9609 := by
  have h := Real.exp_bound (x := -(1/25)) (by rw [abs_of_nonpos] <;> norm_num) (n := 3) (by norm_num)
  rw [abs_le] at h
  obtain ⟨h1, h2⟩ := h
  have hS : ∑ m ∈ Finset.range 3, (-(1/25) : ℝ) ^ m / m.factorial = 1201/1250 := by
    simp [Finset.sum_range_succ, Nat.factorial]
    norm_num
  rw [hS] at h1 h2
  rw [abs_of_nonpos (by norm_num : (-(1/25) : ℝ) ≤ 0)] at h1 h2
  norm_num [Nat.factorial] at h1 h2
  constructor <;> linarith

/-! Concrete values of `compressScore` on the iteration starting at 100. -/

theorem compressScore_at_100 : compressScore 100 = 82 := by
  unfold compressScore
  rw [if_neg (by norm_num)]
  rw [show (-((100 : ℝ) - 60) / 50) = -(4/5) by norm_num]
  obtain ⟨hl, hu⟩ := exp_neg_08_bounds
  rw [round_eq_int_of_bounds (z := 82) (by push_cast; linarith) (by push_cast; linarith)]
  rw [show (((82 : ℤ) : ℝ)) = 82 by norm_num]
  exact min_eq_right (by norm_num)

theorem compressScore_at_82 : compressScore 82 = 74 := by
  unfold compressScore
  rw [if_neg (by norm_num)]
  rw [show (-((82 : ℝ) - 60) / 50) = -(11/25) by norm_num]
  obtain ⟨hl, hu⟩ := exp_neg_044_bounds
  rw [round_eq_int_of_bounds (z := 74) (by push_cast; linarith) (by push_cast; linarith)]
  rw [show (((74 : ℤ) : ℝ)) = 74 by norm_num]
  exact min_eq_right (by norm_num)

theorem compressScore_at_62 : compressScore 62 = 62 := by
  unfold compressScore
  rw [if_neg (by norm_num)]
  rw [show (-((62 : ℝ) - 60) / 50) = -(1/25) by norm_num]
  obtain ⟨hl, hu⟩ := exp_neg_004_bounds
  rw [round_eq_int_of_bounds (z := 62) (by push_cast; linarith) (by push_cast; linarith)]
  rw [show (((62 : ℤ) : ℝ)) = 62 by norm_num]
  exact min_eq_right (by norm_num)

/-- C1, counterexample: compressing 100 once is not a fixed point of
`compressScore` — `compress(compress(100)) = 74` while `compress(100) = 82`,
so the claimed equation `compress(compress(100)) = compress(100)` fails. -/
theorem compressScore_iteration_counterexample :
    compressScore (compressScore 100) ≠ compressScore 100 := by
  rw [compressScore_at_100, compressScore_at_82]
  norm_num

/-- C1 (amended): `compressScore` is the identity on every input ≤ 60 and
every output is at most 100; but 100 is not a fixed point after one
application: `compress(100) = 82` and `compress(82) = 74`. The iteration does
reach a fixed point further down: `compress(62) = 62`. -/
theorem compressScore_spec_amended :
    (∀ x : ℝ, x ≤ 60 → compressScore x = x) ∧
    (∀ x : ℝ, compressScore x ≤ 100) ∧
    compressScore 100 = 82 ∧ compressScore 82 = 74 ∧ compressScore 62 = 62 := by
  refine ⟨fun x hx => if_pos hx, fun x => ?_, compressScore_at_100,
    compressScore_at_82, compressScore_at_62⟩
  unfold compressScore
  by_cases hx : x ≤ 60
  · rw [if_pos hx]; linarith
  · rw [if_neg hx]; exact min_le_left _ _

/-- C1 witness: the amended theorem at the concrete input 50. -/
theorem compressScore_spec_amended_witness :
    (50 : ℝ) ≤ 60 ∧ compressScore 50 = 50 :=
  ⟨by norm_num, compressScore_spec_amended.1 50 (by norm_num)⟩

/-! Supporting facts about the scoring pieces. -/

/-- The saturation denominator `logMax` is positive for a nonempty category. -/
theorem logMax_pos (M : ℕ) (k : ℝ) (hk : 0 < k) (hM : 1 ≤ M) :
    0 < Real.log (1 + M * k) := by
  apply Real.log_pos
  have hM0 : (1 : ℝ) ≤ M := by exact_mod_cast hM
  nlinarith

/-- The count score is nonnegative. -/
theorem countScore_nonneg (c M : ℕ) (k : ℝ) (hk : 0 < k) (hM : 1 ≤ M) :
    0 ≤ countScore c M k := by
  have hL := logMax_pos M k hk hM
  apply div_nonneg _ hL.le
  have h0 : 0 ≤ Real.log (1 + c * k) :=
    Real.log_nonneg (le_add_of_nonneg_right (by positivity))
  linarith

/-- Below saturation the count score stays within its 60-point budget. -/
theorem countScore_le_60 (c M : ℕ) (k : ℝ) (hk : 0 < k) (hM : 1 ≤ M)
    (hcM : c ≤ M) : countScore c M k ≤ 60 := by
  have hL := logMax_pos M k hk hM
  rw [countScore, div_le_iff₀ hL]
  have hlog : Real.log (1 + c * k) ≤ Real.log (1 + M * k) := by
    apply (Real.log_le_log_iff (by positivity) (by positivity)).mpr
    have hc : (c : ℝ) ≤ M := Nat.cast_le.mpr hcM
    nlinarith
  nlinarith [hL.le]

/-- The density bonus is nonnegative. -/
theorem densityBonus_nonneg (c M : ℕ) : 0 ≤ densityBonus c M := by
  unfold densityBonus
  split_ifs with h
  · apply mul_nonneg (by norm_num)
    apply le_min (by norm_num)
    apply div_nonneg
    · apply Real.log_nonneg
      have hMc : (M : ℝ) ≤ c := Nat.cast_le.mpr h.le
      linarith
    · apply Real.log_nonneg
      have h0 : (0 : ℝ) ≤ (M : ℝ) := Nat.cast_nonneg M
      linarith
  · exact le_refl 0

/-- The density bonus never exceeds its 15-point budget. -/
theorem densityBonus_le_15 (c M : ℕ) : densityBonus c M ≤ 15 := by
  unfold densityBonus
  split_ifs with h
  · have hmin := min_le_left (1 : ℝ)
      (Real.log (1 + ((c : ℝ) - M)) / Real.log (1 + (M : ℝ) * 2))
    nlinarith
  · norm_num

/-- At distance zero the distance score is the full 25 points. -/
theorem distanceScore_zero (radius : ℝ) : distanceScore 0 radius = 25 := by
  simp [distanceScore]

/-- Clamp bounds for the engine scorer: for any count, the result is an
integer in [0, 100], as long as the configuration is well-formed
(positive curve constant, at least one POI at saturation, minCount within
maxCount). -/
theorem calculateSimpleScore_bounds (count minCount maxCount : ℕ) (k radius : ℝ)
    (hk : 0 < k) (hM : 1 ≤ maxCount) (hmin : minCount ≤ maxCount) :
    0 ≤ calculateSimpleScore count maxCount k (some 0) radius minCount ∧
    calculateSimpleScore count maxCount k (some 0) radius minCount ≤ 100 ∧
    ∃ z : ℤ, calculateSimpleScore count maxCount k (some 0) radius minCount = z := by
  have hcsn := countScore_nonneg count maxCount k hk hM
  have hds : engineDistanceScore (some 0) radius = 25 := by
    simp [engineDistanceScore, distanceScore_zero]
  have hdbn := densityBonus_nonneg count maxCount
  unfold calculateSimpleScore
  rw [hds]
  by_cases hc : count < minCount
  · rw [if_pos hc]
    have hcs60 : countScore count maxCount k ≤ 60 :=
      countScore_le_60 count maxCount k hk hM (by omega)
    have hv0 : (0 : ℝ) ≤ (countScore count maxCount k + 25) * 0.4 := by nlinarith
    have hround0 : (0 : ℤ) ≤ round ((countScore count maxCount k + 25) * 0.4) :=
      round_nonneg_of_nonneg hv0
    have hround100 : round ((countScore count maxCount k + 25) * 0.4) ≤ (100 : ℤ) :=
      round_le_int_of_lt (by push_cast; nlinarith)
    refine ⟨by exact_mod_cast hround0, by exact_mod_cast hround100, _, rfl⟩
  · rw [if_neg hc]
    have hv0 : (0 : ℝ) ≤ countScore count maxCount k + 25 + densityBonus count maxCount := by
      linarith
    have hround0 : (0 : ℤ) ≤
        round (countScore count maxCount k + 25 + densityBonus count maxCount) :=
      round_nonneg_of_nonneg hv0
    refine ⟨le_min (by norm_num) (by exact_mod_cast hround0), min_le_left _ _, ?_⟩
    refine ⟨min 100 (round (countScore count maxCount k + 25 + densityBonus count maxCount)), ?_⟩
    rw [Int.cast_min]
    norm_num

/-- The batch per-category scorer exceeds 100 for the groceries
configuration at count = 100 = 10·maxCount with the nearest POI at 0 m. -/
theorem batchCore_groceries_exceeds : 100 < batchCategoryScoreCore groceriesDef 100 0 := by
  have hlog : (5 : ℝ) * Real.log 6 < 3 * Real.log 51 := by
    have h : Real.log (6 ^ (5 : ℕ)) < Real.log (51 ^ (3 : ℕ)) :=
      Real.log_lt_log (by positivity) (by norm_num)
    rw [Real.log_pow, Real.log_pow] at h
    push_cast at h
    linarith
  have hl6 : 0 < Real.log 6 := Real.log_pos (by norm_num)
  have hcs : 100 < countScore 100 10 ((0.5 : ℝ)) := by
    rw [countScore]
    have h51 : (1 : ℝ) + (100 : ℕ) * (0.5 : ℝ) = 51 := by norm_num
    have h6 : (1 : ℝ) + (10 : ℕ) * (0.5 : ℝ) = 6 := by norm_num
    rw [h51, h6, lt_div_iff₀ hl6]
    linarith
  have hds : distanceScore 0 groceriesDef.radius = 25 := distanceScore_zero _
  have hdb : 0 ≤ densityBonus 100 10 := densityBonus_nonneg 100 10
  unfold batchCategoryScoreCore
  rw [if_neg (by norm_num), if_neg (by norm_num [groceriesDef])]
  have hgk : groceriesDef.saturationK.getD 0.5 = (0.5 : ℝ) := rfl
  have hgM : groceriesDef.maxCount = 10 := rfl
  rw [hgk, hgM, hds]
  linarith

/-- C2, counterexample: the claim also asserts the clamp for the batch
calculator's `calculateCategoryScore`, but for the groceries configuration
(a category configuration of the program) at POI count 100 = 10·maxCount and
nearestDistance 0 the batch per-category score exceeds 100 (it returns the
raw uncapped score ≈ 171.7). -/
theorem perCategory_clamp_counterexample :
    groceriesDef ∈ categories ∧ 100 = 10 * groceriesDef.maxCount ∧
    ¬ batchCategoryScoreCore groceriesDef 100 0 ≤ 100 :=
  ⟨by simp [categories, groceriesDef], by norm_num [groceriesDef],
   not_le.mpr batchCore_groceries_exceeds⟩

/-- C2 (amended): the engine scorer `calculateSimpleScore` is clamped: for
every category configuration of the program and every count up to
10·maxCount with nearestDistance 0 its value is an integer in [0, 100].
The batch `calculateCategoryScore`, however, deliberately returns the raw
unclamped score outside its minimum-count branch, and exceeds 100 at
count = 10·maxCount for groceries; in the batch path clamping happens only
at the aggregated `compressScore` step. -/
theorem perCategory_clamp_amended :
    (∀ cfg ∈ categories, ∀ count : ℕ, count ≤ 10 * cfg.maxCount →
      0 ≤ calculateSimpleScore count cfg.maxCount (cfg.saturationK.getD 0.5)
            (some 0) cfg.radius cfg.minCount ∧
      calculateSimpleScore count cfg.maxCount (cfg.saturationK.getD 0.5)
            (some 0) cfg.radius cfg.minCount ≤ 100 ∧
      ∃ z : ℤ, calculateSimpleScore count cfg.maxCount (cfg.saturationK.getD 0.5)
            (some 0) cfg.radius cfg.minCount = z) ∧
    100 < batchCategoryScoreCore groceriesDef 100 0 := by
  refine ⟨fun cfg hcfg count _ => ?_, batchCore_groceries_exceeds⟩
  refine calculateSimpleScore_bounds count cfg.minCount cfg.maxCount
    (cfg.saturationK.getD 0.5) cfg.radius ?_ ?_ ?_ <;>
    fin_cases hcfg <;> norm_num [Option.getD]

/-- C2 witness: the amended clamp at the groceries configuration, count 100. -/
theorem perCategory_clamp_amended_witness :
    0 ≤ calculateSimpleScore 100 groceriesDef.maxCount
          (groceriesDef.saturationK.getD 0.5) (some 0) groceriesDef.radius
          groceriesDef.minCount ∧
    calculateSimpleScore 100 groceriesDef.maxCount
          (groceriesDef.saturationK.getD 0.5) (some 0) groceriesDef.radius
          groceriesDef.minCount ≤ 100 ∧
    ∃ z : ℤ, calculateSimpleScore 100 groceriesDef.maxCount
          (groceriesDef.saturationK.getD 0.5) (some 0) groceriesDef.radius
          groceriesDef.minCount = z :=
  perCategory_clamp_amended.1 groceriesDef (by simp [categories, groceriesDef])
    100 (by norm_num [groceriesDef])

/-- C3: for a nonzero count strictly below the category's minCount, both the
engine scorer and the batch scorer return exactly
`round((countScore + distanceScore) * 0.4)` — density and diversity bonuses
are discarded and the count+distance sum is scaled by 0.4. -/
theorem minCount_discount_exact (cfg : CategoryDefinition) (count : ℕ) (d : ℝ)
    (h1 : 1 ≤ count) (h2 : count < cfg.minCount) :
    calculateSimpleScore count cfg.maxCount (cfg.saturationK.getD 0.5)
        (some d) cfg.radius cfg.minCount
      = ((round ((countScore count cfg.maxCount (cfg.saturationK.getD 0.5)
          + distanceScore d cfg.radius) * 0.4) : ℤ) : ℝ) ∧
    batchCategoryScoreCore cfg count d
      = ((round ((countScore count cfg.maxCount (cfg.saturationK.getD 0.5)
          + distanceScore d cfg.radius) * 0.4) : ℤ) : ℝ) := by
  constructor
  · unfold calculateSimpleScore
    rw [if_pos h2]
    simp only [engineDistanceScore]
  · unfold batchCategoryScoreCore
    rw [if_neg (by omega), if_pos h2]

/-- C3 witness: the discount at the restaurants configuration (minCount 3)
with count 2 and nearest distance 100 m. -/
theorem minCount_discount_exact_witness :
    calculateSimpleScore 2 restaurantsDef.maxCount
        (restaurantsDef.saturationK.getD 0.5) (some 100) restaurantsDef.radius
        restaurantsDef.minCount
      = ((round ((countScore 2 restaurantsDef.maxCount
          (restaurantsDef.saturationK.getD 0.5)
          + distanceScore 100 restaurantsDef.radius) * 0.4) : ℤ) : ℝ) ∧
    batchCategoryScoreCore restaurantsDef 2 100
      = ((round ((countScore 2 restaurantsDef.maxCount
          (restaurantsDef.saturationK.getD 0.5)
          + distanceScore 100 restaurantsDef.radius) * 0.4) : ℤ) : ℝ) :=
  minCount_discount_exact restaurantsDef 2 100 (by norm_num)
    (by norm_num [restaurantsDef])

/-- C9: for a fixed category (maxCount, saturation constant) the count score
`60·ln(1+count·k)/ln(1+maxCount·k)` is non-decreasing in the count, and
strictly increasing for counts below maxCount·2. -/
theorem countScore_monotone (M : ℕ) (k : ℝ) (hk : 0 < k) (hM : 1 ≤ M) :
    (∀ m n : ℕ, m ≤ n → countScore m M k ≤ countScore n M k) ∧
    (∀ m n : ℕ, m < n → m < 2 * M → countScore m M k < countScore n M k) := by
  have hL := logMax_pos M k hk hM
  constructor
  · intro m n hmn
    unfold countScore
    rw [div_le_div_iff_of_pos_right hL]
    have hlog : Real.log (1 + m * k) ≤ Real.log (1 + n * k) := by
      apply (Real.log_le_log_iff (by positivity) (by positivity)).mpr
      have hc : (m : ℝ) ≤ n := Nat.cast_le.mpr hmn
      nlinarith
    linarith
  · intro m n hmn _
    unfold countScore
    rw [div_lt_div_iff_of_pos_right hL]
    have hlog : Real.log (1 + m * k) < Real.log (1 + n * k) := by
      apply Real.log_lt_log (by positivity)
      have hc : (m : ℝ) < n := Nat.cast_lt.mpr hmn
      nlinarith
    linarith

/-- C9 witness: strictness at counts 1 < 2 for the groceries saturation
parameters (maxCount 10, k = 1/2). -/
theorem countScore_monotone_witness :
    countScore 1 10 (1/2) < countScore 2 10 (1/2) :=
  (countScore_monotone 10 (1/2) (by norm_num) (by norm_num)).2 1 2
    (by norm_num) (by norm_num)

/-! Part B: grid generation from `src/apps/web/lib/jobs/heatmap-processor.ts`.
All arithmetic is rational (floors, ceilings, multiples of the step, rounding
to five decimals), so the embedding lives in `ℚ`. -/

/-- Rounding a coordinate to five decimals,
`Math.round(x * 100000) / 100000`, as used by `snapToGrid` and
`generateGridPoints`. -/
def round5 (x : ℚ) : ℚ := ((round (x * 100000) : ℤ) : ℚ) / 100000

/-- Snap a value to the nearest grid-aligned position: `snapToGrid` of
heatmap-processor.ts lines 37-42 (`ceil`/`floor` of `value/gridStep` times
`gridStep`, then rounded to five decimals). -/
def snapToGrid (value gridStep : ℚ) (roundUp : Bool) : ℚ :=
  round5 (((if roundUp then (⌈value / gridStep⌉ : ℤ) else ⌊value / gridStep⌋) : ℚ) * gridStep)

/-- Number of iterations of the loop
`for (v = start; v <= stop; v += step)` for a positive step: the loop visits
`start + i*step` for `i = 0, …, ⌊(stop-start)/step⌋` when `start ≤ stop` and
does not run otherwise. -/
def stepCount (start stop step : ℚ) : ℕ :=
  if start ≤ stop then (⌊(stop - start) / step⌋ + 1).toNat else 0

/-- Bounding box, the `bounds` field of `HeatmapJobMetadata`
(`src/apps/web/lib/jobs/types.ts`). -/
structure Bounds where
  minLat : ℚ
  maxLat : ℚ
  minLng : ℚ
  maxLng : ℚ
deriving DecidableEq

/-- A generated grid point; the source also carries a running `index` field,
which here is the position in the generated list. -/
structure GridPoint where
  lat : ℚ
  lng : ℚ
deriving DecidableEq

/-- Grid-point generation, `generateGridPoints` of heatmap-processor.ts lines
44-69: snap the bounds outward (`roundUp` for the minima, down for the maxima),
then walk latitudes in the outer loop and longitudes in the inner loop,
rounding every coordinate to five decimals. -/
def generateGridPoints (bounds : Bounds) (gridStep : ℚ) : List GridPoint :=
  (List.range (stepCount (snapToGrid bounds.minLat gridStep true)
      (snapToGrid bounds.maxLat gridStep false) gridStep)).flatMap fun (i : ℕ) =>
    (List.range (stepCount (snapToGrid bounds.minLng gridStep true)
        (snapToGrid bounds.maxLng gridStep false) gridStep)).map fun (j : ℕ) =>
      ⟨round5 (snapToGrid bounds.minLat gridStep true + (i : ℚ) * gridStep),
       round5 (snapToGrid bounds.minLng gridStep true + (j : ℚ) * gridStep)⟩

/-- Evaluation rule for `round5` at a value whose scaled form lies in the
half-open rounding window of the integer `z`. -/
theorem round5_eq {x : ℚ} {z : ℤ} (h1 : (z : ℚ) - 1/2 ≤ x * 100000)
    (h2 : x * 100000 < (z : ℚ) + 1/2) : round5 x = (z : ℚ) / 100000 := by
  unfold round5
  rw [round_eq_int_of_bounds h1 h2]

/-- Integer multiples of a step of the form m/100000 are fixed by `round5`. -/
theorem round5_intMul (m k : ℤ) :
    round5 ((k : ℚ) * ((m : ℚ) / 100000)) = (k : ℚ) * ((m : ℚ) / 100000) := by
  unfold round5
  have h : ((k : ℚ) * ((m : ℚ) / 100000)) * 100000 = ((k * m : ℤ) : ℚ) := by
    push_cast
    ring
  rw [h, round_intCast]
  push_cast
  ring

/-- For a step of the form m/100000 the upward snap is the exact ceiling
multiple. -/
theorem snapToGrid_up (v : ℚ) (m : ℤ) :
    snapToGrid v ((m : ℚ)/100000) true
      = (⌈v / ((m : ℚ)/100000)⌉ : ℚ) * ((m : ℚ)/100000) := by
  unfold snapToGrid
  simp only [if_true]
  exact round5_intMul m _

/-- For a step of the form m/100000 the downward snap is the exact floor
multiple. -/
theorem snapToGrid_down (v : ℚ) (m : ℤ) :
    snapToGrid v ((m : ℚ)/100000) false
      = (⌊v / ((m : ℚ)/100000)⌋ : ℚ) * ((m : ℚ)/100000) := by
  unfold snapToGrid
  simp only [Bool.false_eq_true, if_false]
  exact round5_intMul m _

/-- Loop count between two exact multiples of a positive step. -/
theorem stepCount_intMul (A B m : ℤ) (hm : 0 < m) :
    stepCount ((A : ℚ) * ((m : ℚ)/100000)) ((B : ℚ) * ((m : ℚ)/100000)) ((m : ℚ)/100000)
      = (B - A + 1).toNat := by
  have hs : (0 : ℚ) < (m : ℚ)/100000 := by positivity
  unfold stepCount
  by_cases hAB : A ≤ B
  · rw [if_pos (mul_le_mul_of_nonneg_right (by exact_mod_cast hAB) hs.le)]
    have hdiv : ((B : ℚ) * ((m : ℚ)/100000) - (A : ℚ) * ((m : ℚ)/100000)) / ((m : ℚ)/100000)
        = ((B - A : ℤ) : ℚ) := by
      push_cast
      field_simp
      ring
    rw [hdiv, Int.floor_intCast]
  · rw [if_neg (by
      intro hle
      exact hAB (by exact_mod_cast (mul_le_mul_right hs).mp hle))]
    omega

/-- Membership characterization of the generated grid when the step is an
exact multiple of 0.00001: the points are precisely the exact integer
multiples of the step between the snapped bounds. -/
theorem mem_generateGridPoints_iff (m : ℤ) (hm : 0 < m) (b : Bounds) (p : GridPoint) :
    p ∈ generateGridPoints b ((m : ℚ)/100000) ↔
      ∃ a c : ℤ,
        ⌈b.minLat / ((m : ℚ)/100000)⌉ ≤ a ∧ a ≤ ⌊b.maxLat / ((m : ℚ)/100000)⌋ ∧
        ⌈b.minLng / ((m : ℚ)/100000)⌉ ≤ c ∧ c ≤ ⌊b.maxLng / ((m : ℚ)/100000)⌋ ∧
        p.lat = (a : ℚ) * ((m : ℚ)/100000) ∧ p.lng = (c : ℚ) * ((m : ℚ)/100000) := by
  have hN1 : stepCount (snapToGrid b.minLat ((m : ℚ)/100000) true)
      (snapToGrid b.maxLat ((m : ℚ)/100000) false) ((m : ℚ)/100000)
      = (⌊b.maxLat / ((m : ℚ)/100000)⌋ - ⌈b.minLat / ((m : ℚ)/100000)⌉ + 1).toNat := by
    rw [snapToGrid_up, snapToGrid_down, stepCount_intMul _ _ m hm]
  have hN2 : stepCount (snapToGrid b.minLng ((m : ℚ)/100000) true)
      (snapToGrid b.maxLng ((m : ℚ)/100000) false) ((m : ℚ)/100000)
      = (⌊b.maxLng / ((m : ℚ)/100000)⌋ - ⌈b.minLng / ((m : ℚ)/100000)⌉ + 1).toNat := by
    rw [snapToGrid_up, snapToGrid_down, stepCount_intMul _ _ m hm]
  unfold generateGridPoints
  rw [hN1, hN2, snapToGrid_up b.minLat m, snapToGrid_up b.minLng m]
  constructor
  · intro hp
    rw [List.mem_flatMap] at hp
    obtain ⟨i, hi, hp⟩ := hp
    rw [List.mem_map] at hp
    obtain ⟨j, hj, hpe⟩ := hp
    rw [List.mem_range] at hi hj
    subst hpe
    refine ⟨⌈b.minLat / ((m : ℚ)/100000)⌉ + (i : ℤ), ⌈b.minLng / ((m : ℚ)/100000)⌉ + (j : ℤ),
      by omega, by omega, by omega, by omega, ?_, ?_⟩
    · show round5 _ = _
      rw [show (⌈b.minLat / ((m : ℚ)/100000)⌉ : ℚ) * ((m : ℚ)/100000)
            + ((i : ℕ) : ℚ) * ((m : ℚ)/100000)
          = ((⌈b.minLat / ((m : ℚ)/100000)⌉ + (i : ℤ) : ℤ) : ℚ) * ((m : ℚ)/100000) by
        push_cast; ring]
      exact round5_intMul m _
    · show round5 _ = _
      rw [show (⌈b.minLng / ((m : ℚ)/100000)⌉ : ℚ) * ((m : ℚ)/100000)
            + ((j : ℕ) : ℚ) * ((m : ℚ)/100000)
          = ((⌈b.minLng / ((m : ℚ)/100000)⌉ + (j : ℤ) : ℤ) : ℚ) * ((m : ℚ)/100000) by
        push_cast; ring]
      exact round5_intMul m _
  · rintro ⟨a, c, ha1, ha2, hc1, hc2, hlat, hlng⟩
    rw [List.mem_flatMap]
    refine ⟨(a - ⌈b.minLat / ((m : ℚ)/100000)⌉).toNat, List.mem_range.mpr (by omega), ?_⟩
    rw [List.mem_map]
    refine ⟨(c - ⌈b.minLng / ((m : ℚ)/100000)⌉).toNat, List.mem_range.mpr (by omega), ?_⟩
    have hca : (((a - ⌈b.minLat / ((m : ℚ)/100000)⌉).toNat : ℕ) : ℚ)
        = ((a : ℚ) - (⌈b.minLat / ((m : ℚ)/100000)⌉ : ℚ)) := by
      have h := Int.toNat_of_nonneg (by omega : 0 ≤ a - ⌈b.minLat / ((m : ℚ)/100000)⌉)
      exact_mod_cast congrArg (fun z : ℤ => (z : ℚ)) h
    have hcc : (((c - ⌈b.minLng / ((m : ℚ)/100000)⌉).toNat : ℕ) : ℚ)
        = ((c : ℚ) - (⌈b.minLng / ((m : ℚ)/100000)⌉ : ℚ)) := by
      have h := Int.toNat_of_nonneg (by omega : 0 ≤ c - ⌈b.minLng / ((m : ℚ)/100000)⌉)
      exact_mod_cast congrArg (fun z : ℤ => (z : ℚ)) h
    have hl1 : (⌈b.minLat / ((m : ℚ)/100000)⌉ : ℚ) * ((m : ℚ)/100000)
          + (((a - ⌈b.minLat / ((m : ℚ)/100000)⌉).toNat : ℕ) : ℚ) * ((m : ℚ)/100000)
        = (a : ℚ) * ((m : ℚ)/100000) := by
      rw [hca]; ring
    have hl2 : (⌈b.minLng / ((m : ℚ)/100000)⌉ : ℚ) * ((m : ℚ)/100000)
          + (((c - ⌈b.minLng / ((m : ℚ)/100000)⌉).toNat : ℕ) : ℚ) * ((m : ℚ)/100000)
        = (c : ℚ) * ((m : ℚ)/100000) := by
      rw [hcc]; ring
    show GridPoint.mk _ _ = p
    rw [hl1, hl2, round5_intMul m a, round5_intMul m c]
    cases p
    simp only [GridPoint.mk.injEq]
    exact ⟨hlat.symm, hlng.symm⟩

/-! Concrete grid evaluations at the incommensurate step 0.000017, used to
refute exact alignment for arbitrary steps. -/

theorem gridCex_snap_b2min : snapToGrid (4/100000) (17/1000000) true = 5/100000 := by
  unfold snapToGrid
  have hc : ⌈((4 : ℚ)/100000) / (17/1000000)⌉ = (3 : ℤ) := by
    rw [Int.ceil_eq_iff]
    norm_num
  simp only [if_true]
  rw [hc, round5_eq (z := 5) (by norm_num) (by norm_num)]
  norm_num

theorem gridCex_snap_b1min : snapToGrid (1/100000) (17/1000000) true = 2/100000 := by
  unfold snapToGrid
  have hc : ⌈((1 : ℚ)/100000) / (17/1000000)⌉ = (1 : ℤ) := by
    rw [Int.ceil_eq_iff]
    norm_num
  simp only [if_true]
  rw [hc, round5_eq (z := 2) (by norm_num) (by norm_num)]
  norm_num

theorem gridCex_snap_max : snapToGrid (9/100000) (17/1000000) false = 9/100000 := by
  unfold snapToGrid
  have hc : ⌊((9 : ℚ)/100000) / (17/1000000)⌋ = (5 : ℤ) := by
    rw [Int.floor_eq_iff]
    norm_num
  simp only [Bool.false_eq_true, if_false]
  rw [hc, round5_eq (z := 9) (by norm_num) (by norm_num)]
  norm_num

theorem gridCex_snap_lng_up : snapToGrid 0 (17/1000000) true = 0 := by
  unfold snapToGrid
  norm_num [round5]

theorem gridCex_snap_lng_down : snapToGrid 0 (17/1000000) false = 0 := by
  unfold snapToGrid
  norm_num [round5]

theorem gridCex_count_b2 : stepCount (5/100000) (9/100000) (17/1000000) = 3 := by
  unfold stepCount
  rw [if_pos (by norm_num)]
  have h2 : ⌊((9 : ℚ)/100000 - 5/100000) / (17/1000000)⌋ = 2 := by
    rw [Int.floor_eq_iff]
    norm_num
  rw [h2]
  rfl

theorem gridCex_count_b1 : stepCount (2/100000) (9/100000) (17/1000000) = 5 := by
  unfold stepCount
  rw [if_pos (by norm_num)]
  have h4 : ⌊((9 : ℚ)/100000 - 2/100000) / (17/1000000)⌋ = 4 := by
    rw [Int.floor_eq_iff]
    norm_num
  rw [h4]
  rfl

theorem gridCex_count_lng : stepCount 0 0 (17/1000000) = 1 := by
  unfold stepCount
  rw [if_pos le_rfl]
  norm_num

theorem gridCex_mem :
    (⟨8/100000, 0⟩ : GridPoint) ∈
      generateGridPoints ⟨4/100000, 9/100000, 0, 0⟩ (17/1000000) := by
  simp only [generateGridPoints]
  rw [gridCex_snap_b2min, gridCex_snap_max, gridCex_snap_lng_up, gridCex_snap_lng_down,
    gridCex_count_b2, gridCex_count_lng]
  rw [List.mem_flatMap]
  refine ⟨2, by simp, ?_⟩
  rw [List.mem_map]
  refine ⟨0, by simp, ?_⟩
  have h1 : round5 (5/100000 + ((2 : ℕ) : ℚ) * (17/1000000)) = ((8 : ℤ) : ℚ)/100000 :=
    round5_eq (by norm_num) (by norm_num)
  rw [h1]
  norm_num [round5, GridPoint.mk.injEq]

theorem gridCex_notmem :
    (⟨8/100000, 0⟩ : GridPoint) ∉
      generateGridPoints ⟨1/100000, 9/100000, 0, 0⟩ (17/1000000) := by
  simp only [generateGridPoints]
  rw [gridCex_snap_b1min, gridCex_snap_max, gridCex_snap_lng_up, gridCex_snap_lng_down,
    gridCex_count_b1, gridCex_count_lng]
  intro hmem
  rw [List.mem_flatMap] at hmem
  obtain ⟨i, hi, hp⟩ := hmem
  rw [List.mem_map] at hp
  obtain ⟨j, hj, hpe⟩ := hp
  rw [List.mem_range] at hi hj
  have hlat : round5 (2/100000 + ((i : ℕ) : ℚ) * (17/1000000)) = 8/100000 := by
    have h := congrArg GridPoint.lat hpe
    simpa using h
  interval_cases i
  · rw [round5_eq (z := 2) (by norm_num) (by norm_num)] at hlat
    norm_num at hlat
  · rw [round5_eq (z := 4) (by norm_num) (by norm_num)] at hlat
    norm_num at hlat
  · rw [round5_eq (z := 5) (by norm_num) (by norm_num)] at hlat
    norm_num at hlat
  · rw [round5_eq (z := 7) (by norm_num) (by norm_num)] at hlat
    norm_num at hlat
  · rw [round5_eq (z := 9) (by norm_num) (by norm_num)] at hlat
    norm_num at hlat

/-- C4, counterexample: at the step 0.000017 (not a multiple of the 0.00001
coordinate-rounding grain) two nested bounding boxes disagree on a shared
cell. The smaller box [0.00004, 0.00009]×[0,0] lies inside the larger box
[0.00001, 0.00009]×[0,0]; the smaller box generates the point
(0.00008, 0), the larger box does not generate any point with that latitude,
and that coordinate is not an integer multiple of the step at all — so the
two grids are not aligned on a common global grid and shared cells are not
bit-identical. -/
theorem gridPoints_alignment_counterexample :
    ((1 : ℚ)/100000 ≤ 4/100000 ∧ (9 : ℚ)/100000 ≤ 9/100000) ∧
    (⟨8/100000, 0⟩ : GridPoint) ∈
      generateGridPoints ⟨4/100000, 9/100000, 0, 0⟩ (17/1000000) ∧
    (⟨8/100000, 0⟩ : GridPoint) ∉
      generateGridPoints ⟨1/100000, 9/100000, 0, 0⟩ (17/1000000) ∧
    ∀ i : ℤ, ((8 : ℚ)/100000) ≠ (i : ℚ) * (17/1000000) := by
  refine ⟨⟨by norm_num, by norm_num⟩, gridCex_mem, gridCex_notmem, ?_⟩
  intro i h
  have h2 : ((8 : ℚ)/100000) * 1000000 = ((i : ℚ) * (17/1000000)) * 1000000 := by rw [h]
  have h3 : (80 : ℚ) = 17 * i := by
    field_simp at h2
    linarith
  have h4 : (80 : ℤ) = 17 * i := by exact_mod_cast h3
  omega

/-- C4 (amended): for every grid step that is a positive integer multiple of
0.00001 — which includes the program's only step, 0.0025 — all grid points are
exact integer multiples of the step (one global grid), and a bounding box
nested inside another generates a subset of the other's points, so shared
points are bit-identical. For steps incommensurate with the 0.00001
coordinate rounding this fails (see the counterexample). -/
theorem gridPoints_alignment_amended (m : ℤ) (hm : 0 < m) (b1 b2 : Bounds) :
    (∀ p ∈ generateGridPoints b1 ((m : ℚ)/100000), ∃ i j : ℤ,
        p.lat = (i : ℚ) * ((m : ℚ)/100000) ∧ p.lng = (j : ℚ) * ((m : ℚ)/100000)) ∧
    (b1.minLat ≤ b2.minLat → b2.maxLat ≤ b1.maxLat → b1.minLng ≤ b2.minLng →
        b2.maxLng ≤ b1.maxLng →
      ∀ p ∈ generateGridPoints b2 ((m : ℚ)/100000),
        p ∈ generateGridPoints b1 ((m : ℚ)/100000)) := by
  have hs : (0 : ℚ) < (m : ℚ)/100000 := by positivity
  constructor
  · intro p hp
    obtain ⟨a, c, _, _, _, _, hlat, hlng⟩ := (mem_generateGridPoints_iff m hm b1 p).mp hp
    exact ⟨a, c, hlat, hlng⟩
  · intro h1 h2 h3 h4 p hp
    obtain ⟨a, c, ha1, ha2, hc1, hc2, hlat, hlng⟩ :=
      (mem_generateGridPoints_iff m hm b2 p).mp hp
    refine (mem_generateGridPoints_iff m hm b1 p).mpr ⟨a, c, ?_, ?_, ?_, ?_, hlat, hlng⟩
    · exact le_trans (Int.ceil_mono ((div_le_div_iff_of_pos_right hs).mpr h1)) ha1
    · exact le_trans ha2 (Int.floor_mono ((div_le_div_iff_of_pos_right hs).mpr h2))
    · exact le_trans (Int.ceil_mono ((div_le_div_iff_of_pos_right hs).mpr h3)) hc1
    · exact le_trans hc2 (Int.floor_mono ((div_le_div_iff_of_pos_right hs).mpr h4))

/-- C4 witness: the amended theorem at the program's step 0.0025 = 250/100000,
applied to the origin point of the one-point box at the origin. -/
theorem gridPoints_alignment_amended_witness :
    ∃ i j : ℤ,
      (GridPoint.mk 0 0).lat = (i : ℚ) * (((250 : ℤ) : ℚ)/100000) ∧
      (GridPoint.mk 0 0).lng = (j : ℚ) * (((250 : ℤ) : ℚ)/100000) := by
  have hmem : (GridPoint.mk 0 0) ∈
      generateGridPoints ⟨0, 0, 0, 0⟩ (((250 : ℤ) : ℚ)/100000) := by
    refine (mem_generateGridPoints_iff 250 (by norm_num) ⟨0, 0, 0, 0⟩ ⟨0, 0⟩).mpr
      ⟨0, 0, ?_, ?_, ?_, ?_, ?_, ?_⟩ <;> simp
  exact (gridPoints_alignment_amended 250 (by norm_num) ⟨0, 0, 0, 0⟩
    ⟨0, 0, 0, 0⟩).1 ⟨0, 0⟩ hmem

/-! Part C: job model and scheduler, from the jobs module (`scheduleHeatmapJob`,
`scheduleRegionalHeatmapJob`, `hasPoisInRegion`, `hasOverlappingJob`).
The database jobs table is a list of job records; timestamps are omitted
(no claim mentions them); the serial primary key is modelled as max id + 1. -/

/-- Job status enumeration, `JOB_STATUS` of `src/apps/web/lib/jobs/types.ts`. -/
inductive JobStatus where
  | pending
  | running
  | completed
  | failed
deriving DecidableEq

/-- Job metadata, `HeatmapJobMetadata` of `src/apps/web/lib/jobs/types.ts`;
`bounds` is optional because `processHeatmapChunk` guards against its absence,
and `lastProcessedIndex` is optional in the source interface. -/
structure HeatmapJobMetadata where
  bounds : Option Bounds
  gridStep : ℚ
  lastProcessedIndex : Option ℕ
deriving DecidableEq

/-- A row of the jobs table (schema fields used by the verified code;
timestamps omitted). `totalItems` is an integer as computed by the scheduler. -/
structure JobRec where
  id : ℕ
  type : String
  status : JobStatus
  cityId : Option ℕ
  progress : ℤ
  totalItems : ℤ
  metadata : HeatmapJobMetadata
  error : Option String
deriving DecidableEq

/-- The single job type, `JOB_TYPES.HEATMAP_COMPUTE`. -/
def HEATMAP_COMPUTE : String := "heatmap_compute"

/-- The global grid step, `HEATMAP_GRID_STEP = 0.0025` from
`src/apps/web/lib/constants.ts`. -/
def HEATMAP_GRID_STEP : ℚ := 0.0025

/-- Region size for auto-scheduled jobs, `REGION_SIZE = 0.15`. -/
def REGION_SIZE : ℚ := 0.15

/-- Dedup filter of `scheduleHeatmapJob`: an active (pending or running)
heatmap job, with matching cityId when the city resolved to an id (the source
uses the always-true condition `1=1` when cityId is null), at the global grid
step. -/
def dedupMatchB (cityId : Option ℕ) (j : JobRec) : Bool :=
  decide (j.type = HEATMAP_COMPUTE) &&
  (decide (j.status = JobStatus.pending) || decide (j.status = JobStatus.running)) &&
  (match cityId with
   | some c => decide (j.cityId = some c)
   | none => true) &&
  decide (j.metadata.gridStep = HEATMAP_GRID_STEP)

/-- Result record of the schedulers (`ScheduleResult`). -/
structure ScheduleResult where
  jobId : ℕ
  status : JobStatus
  isNew : Bool
deriving DecidableEq

/-- Fresh serial id for an insert. -/
def freshId (s : List JobRec) : ℕ := (s.map JobRec.id).foldr max 0 + 1

/-- Explicit scheduler `scheduleHeatmapJob` (given resolved city id and
bounds — the early `null` return for a city without bounds is outside the
model): return the first active matching job unchanged with `isNew = false`,
otherwise insert a fresh pending job at `HEATMAP_GRID_STEP` with
`lastProcessedIndex = 0`. -/
def scheduleHeatmapJob (cityId : Option ℕ) (bounds : Bounds) (s : List JobRec) :
    ScheduleResult × List JobRec :=
  match (s.filter (dedupMatchB cityId)).head? with
  | some j => (⟨j.id, j.status, false⟩, s)
  | none =>
      (⟨freshId s, JobStatus.pending, true⟩,
       s ++ [⟨freshId s, HEATMAP_COMPUTE, JobStatus.pending, cityId, 0,
          ⌈(bounds.maxLat - bounds.minLat) / HEATMAP_GRID_STEP⌉ *
          ⌈(bounds.maxLng - bounds.minLng) / HEATMAP_GRID_STEP⌉,
          ⟨some bounds, HEATMAP_GRID_STEP, some 0⟩, none⟩])

/-- POI existence check `hasPoisInRegion`: any POI inside the bounding box of
the given radius (in degrees) around the point. The POI table is a parameter
(list of lat/lng pairs). -/
def hasPoisInRegion (pois : List (ℚ × ℚ)) (lat lng radiusDegrees : ℚ) : Bool :=
  pois.any fun p =>
    decide (lat - radiusDegrees ≤ p.1) && decide (p.1 ≤ lat + radiusDegrees) &&
    decide (lng - radiusDegrees ≤ p.2) && decide (p.2 ≤ lng + radiusDegrees)

/-- Overlap check `hasOverlappingJob`: some active heatmap job whose metadata
bounds contain the point (jobs without bounds are skipped). -/
def hasOverlappingJob (s : List JobRec) (lat lng : ℚ) : Bool :=
  s.any fun j =>
    decide (j.type = HEATMAP_COMPUTE) &&
    (decide (j.status = JobStatus.pending) || decide (j.status = JobStatus.running)) &&
    (match j.metadata.bounds with
     | none => false
     | some b =>
         decide (b.minLat ≤ lat) && decide (lat ≤ b.maxLat) &&
         decide (b.minLng ≤ lng) && decide (lng ≤ b.maxLng))

/-- Auto-triggered scheduler `scheduleRegionalHeatmapJob`: skip when an active
job already covers the point, skip when the region has no POIs, otherwise
insert a pending job with a `REGION_SIZE` square around the point and no
cityId. -/
def scheduleRegionalHeatmapJob (pois : List (ℚ × ℚ)) (lat lng : ℚ) (s : List JobRec) :
    Option ScheduleResult × List JobRec :=
  if hasOverlappingJob s lat lng then (none, s)
  else if ¬ hasPoisInRegion pois lat lng (REGION_SIZE / 2) then (none, s)
  else
    (some ⟨freshId s, JobStatus.pending, true⟩,
     s ++ [⟨freshId s, HEATMAP_COMPUTE, JobStatus.pending, none, 0,
        ⌈((lat + REGION_SIZE/2) - (lat - REGION_SIZE/2)) / HEATMAP_GRID_STEP⌉ *
        ⌈((lng + REGION_SIZE/2) - (lng - REGION_SIZE/2)) / HEATMAP_GRID_STEP⌉,
        ⟨some ⟨lat - REGION_SIZE/2, lat + REGION_SIZE/2,
               lng - REGION_SIZE/2, lng + REGION_SIZE/2⟩,
         HEATMAP_GRID_STEP, some 0⟩, none⟩])

/-- The two job-creation operations of the scheduler. -/
inductive SchedulerOp where
  | schedCity (cityId : Option ℕ) (bounds : Bounds)
  | schedRegion (lat lng : ℚ)

/-- One creation step on the jobs table. -/
def applyOp (pois : List (ℚ × ℚ)) (s : List JobRec) (op : SchedulerOp) : List JobRec :=
  match op with
  | .schedCity cid b => (scheduleHeatmapJob cid b s).2
  | .schedRegion lat lng => (scheduleRegionalHeatmapJob pois lat lng s).2

/-- Jobs table reached by a sequence of creation operations from the empty
table. -/
def runOps (pois : List (ℚ × ℚ)) (ops : List SchedulerOp) : List JobRec :=
  ops.foldl (applyOp pois) []

/-- Membership test of the uniqueness invariant: an active job of the given
cityId at the given grid step. -/
def activeCityStepB (cid : Option ℕ) (g : ℚ) (j : JobRec) : Bool :=
  (decide (j.status = JobStatus.pending) || decide (j.status = JobStatus.running)) &&
  decide (j.cityId = cid) && decide (j.metadata.gridStep = g)

/-- Number of active jobs for a (cityId, gridStep) combination. -/
def countActive (s : List JobRec) (cid : Option ℕ) (g : ℚ) : ℕ :=
  s.countP (activeCityStepB cid g)

/-- C6: if `scheduleHeatmapJob` created a new job (isNew = true), a second
call for the same city and grid step on the resulting table returns the same
job id with `isNew = false`, its status still pending, and leaves the table
— and in particular the existing job — unchanged: no second record is
created. -/
theorem scheduleHeatmapJob_dedup (cid : Option ℕ) (b : Bounds) (s s2 : List JobRec)
    (r : ScheduleResult) (h : scheduleHeatmapJob cid b s = (r, s2))
    (hnew : r.isNew = true) :
    scheduleHeatmapJob cid b s2 = (⟨r.jobId, JobStatus.pending, false⟩, s2) := by
  unfold scheduleHeatmapJob at h
  cases hh : (s.filter (dedupMatchB cid)).head? with
  | some j =>
      rw [hh] at h
      rw [Prod.mk.injEq] at h
      obtain ⟨h1, h2⟩ := h
      rw [← h1] at hnew
      simp at hnew
  | none =>
      rw [hh] at h
      rw [Prod.mk.injEq] at h
      obtain ⟨h1, h2⟩ := h
      subst h2
      have hfe : s.filter (dedupMatchB cid) = [] := List.head?_eq_none_iff.mp hh
      have hmatch : dedupMatchB cid
          ⟨freshId s, HEATMAP_COMPUTE, JobStatus.pending, cid, 0,
            ⌈(b.maxLat - b.minLat) / HEATMAP_GRID_STEP⌉ *
            ⌈(b.maxLng - b.minLng) / HEATMAP_GRID_STEP⌉,
            ⟨some b, HEATMAP_GRID_STEP, some 0⟩, none⟩ = true := by
        cases cid <;> simp [dedupMatchB]
      unfold scheduleHeatmapJob
      rw [List.filter_append, hfe]
      rw [show List.filter (dedupMatchB cid)
          [(⟨freshId s, HEATMAP_COMPUTE, JobStatus.pending, cid, 0,
            ⌈(b.maxLat - b.minLat) / HEATMAP_GRID_STEP⌉ *
            ⌈(b.maxLng - b.minLng) / HEATMAP_GRID_STEP⌉,
            ⟨some b, HEATMAP_GRID_STEP, some 0⟩, none⟩ : JobRec)]
          = [⟨freshId s, HEATMAP_COMPUTE, JobStatus.pending, cid, 0,
            ⌈(b.maxLat - b.minLat) / HEATMAP_GRID_STEP⌉ *
            ⌈(b.maxLng - b.minLng) / HEATMAP_GRID_STEP⌉,
            ⟨some b, HEATMAP_GRID_STEP, some 0⟩, none⟩] from by
        simp [hmatch]]
      rw [← h1]
      simp

/-- C6 witness: two consecutive calls for city id 1 on the empty table. -/
theorem scheduleHeatmapJob_dedup_witness :
    scheduleHeatmapJob (some 1) ⟨0, 1, 0, 1⟩
        (scheduleHeatmapJob (some 1) ⟨0, 1, 0, 1⟩ []).2
      = (⟨(scheduleHeatmapJob (some 1) ⟨0, 1, 0, 1⟩ []).1.jobId,
          JobStatus.pending, false⟩,
         (scheduleHeatmapJob (some 1) ⟨0, 1, 0, 1⟩ []).2) :=
  scheduleHeatmapJob_dedup (some 1) ⟨0, 1, 0, 1⟩ []
    (scheduleHeatmapJob (some 1) ⟨0, 1, 0, 1⟩ []).2
    (scheduleHeatmapJob (some 1) ⟨0, 1, 0, 1⟩ []).1 rfl rfl

/-- Appending tables adds the active counts. -/
theorem countActive_append (s t : List JobRec) (cid : Option ℕ) (g : ℚ) :
    countActive (s ++ t) cid g = countActive s cid g + countActive t cid g := by
  simp [countActive, List.countP_append]

/-- Creation ops only ever insert heatmap-compute jobs. -/
theorem applyOp_types (pois : List (ℚ × ℚ)) (s : List JobRec) (op : SchedulerOp)
    (h1 : ∀ j ∈ s, j.type = HEATMAP_COMPUTE) :
    ∀ j ∈ applyOp pois s op, j.type = HEATMAP_COMPUTE := by
  cases op with
  | schedCity cid b =>
      simp only [applyOp]
      unfold scheduleHeatmapJob
      cases hh : (s.filter (dedupMatchB cid)).head? with
      | some j => simpa using h1
      | none =>
          intro j hj
          simp only [List.mem_append, List.mem_singleton] at hj
          cases hj with
          | inl h => exact h1 j h
          | inr h => subst h; rfl
  | schedRegion lat lng =>
      simp only [applyOp]
      unfold scheduleRegionalHeatmapJob
      split_ifs with hov hpoi
      · simpa using h1
      · intro j hj
        simp only [List.mem_append, List.mem_singleton] at hj
        cases hj with
        | inl h => exact h1 j h
        | inr h => subst h; rfl
      · simpa using h1

/-- One creation op preserves the per-city uniqueness bound, as long as the
table only holds heatmap jobs. -/
theorem applyOp_countActive (pois : List (ℚ × ℚ)) (s : List JobRec) (op : SchedulerOp)
    (h1 : ∀ j ∈ s, j.type = HEATMAP_COMPUTE)
    (h2 : ∀ c g, countActive s (some c) g ≤ 1) :
    ∀ c g, countActive (applyOp pois s op) (some c) g ≤ 1 := by
  intro c g
  cases op with
  | schedRegion lat lng =>
      simp only [applyOp]
      unfold scheduleRegionalHeatmapJob
      split_ifs with hov hpoi
      · simpa using h2 c g
      · show countActive (s ++ [(⟨freshId s, HEATMAP_COMPUTE, JobStatus.pending, none, 0,
            ⌈((lat + REGION_SIZE/2) - (lat - REGION_SIZE/2)) / HEATMAP_GRID_STEP⌉ *
            ⌈((lng + REGION_SIZE/2) - (lng - REGION_SIZE/2)) / HEATMAP_GRID_STEP⌉,
            ⟨some ⟨lat - REGION_SIZE/2, lat + REGION_SIZE/2,
                   lng - REGION_SIZE/2, lng + REGION_SIZE/2⟩,
             HEATMAP_GRID_STEP, some 0⟩, none⟩ : JobRec)]) (some c) g ≤ 1
        rw [countActive_append]
        have hz : countActive [(⟨freshId s, HEATMAP_COMPUTE, JobStatus.pending, none, 0,
              ⌈((lat + REGION_SIZE/2) - (lat - REGION_SIZE/2)) / HEATMAP_GRID_STEP⌉ *
              ⌈((lng + REGION_SIZE/2) - (lng - REGION_SIZE/2)) / HEATMAP_GRID_STEP⌉,
              ⟨some ⟨lat - REGION_SIZE/2, lat + REGION_SIZE/2,
                     lng - REGION_SIZE/2, lng + REGION_SIZE/2⟩,
               HEATMAP_GRID_STEP, some 0⟩, none⟩ : JobRec)] (some c) g = 0 := by
          simp [countActive, activeCityStepB]
        rw [hz]
        have := h2 c g
        omega
      · simpa using h2 c g
  | schedCity cid b =>
      simp only [applyOp]
      unfold scheduleHeatmapJob
      cases hh : (s.filter (dedupMatchB cid)).head? with
      | some j => simpa using h2 c g
      | none =>
          show countActive (s ++ [(⟨freshId s, HEATMAP_COMPUTE, JobStatus.pending, cid, 0,
              ⌈(b.maxLat - b.minLat) / HEATMAP_GRID_STEP⌉ *
              ⌈(b.maxLng - b.minLng) / HEATMAP_GRID_STEP⌉,
              ⟨some b, HEATMAP_GRID_STEP, some 0⟩, none⟩ : JobRec)]) (some c) g ≤ 1
          rw [countActive_append]
          by_cases hmatch : activeCityStepB (some c) g
              (⟨freshId s, HEATMAP_COMPUTE, JobStatus.pending, cid, 0,
                ⌈(b.maxLat - b.minLat) / HEATMAP_GRID_STEP⌉ *
                ⌈(b.maxLng - b.minLng) / HEATMAP_GRID_STEP⌉,
                ⟨some b, HEATMAP_GRID_STEP, some 0⟩, none⟩ : JobRec) = true
          · have hcg : cid = some c ∧ g = HEATMAP_GRID_STEP := by
              simp only [activeCityStepB, Bool.and_eq_true, Bool.or_eq_true,
                decide_eq_true_eq] at hmatch
              exact ⟨hmatch.1.2, hmatch.2.symm⟩
            have hfe : s.filter (dedupMatchB cid) = [] := List.head?_eq_none_iff.mp hh
            have hzero : countActive s (some c) g = 0 := by
              rw [countActive, List.countP_eq_zero]
              intro j hj hjb
              have hjt := h1 j hj
              have hjd : dedupMatchB cid j = true := by
                simp only [activeCityStepB, Bool.and_eq_true, Bool.or_eq_true,
                  decide_eq_true_eq] at hjb
                obtain ⟨⟨hst, hcid⟩, hg⟩ := hjb
                simp only [dedupMatchB, hcg.1, Bool.and_eq_true, Bool.or_eq_true,
                  decide_eq_true_eq]
                refine ⟨⟨⟨hjt, hst⟩, hcid⟩, ?_⟩
                rw [hg, hcg.2]
              have hnot := List.filter_eq_nil_iff.mp hfe j hj
              exact hnot hjd
            rw [hzero]
            have hone : countActive [(⟨freshId s, HEATMAP_COMPUTE, JobStatus.pending, cid, 0,
                ⌈(b.maxLat - b.minLat) / HEATMAP_GRID_STEP⌉ *
                ⌈(b.maxLng - b.minLng) / HEATMAP_GRID_STEP⌉,
                ⟨some b, HEATMAP_GRID_STEP, some 0⟩, none⟩ : JobRec)] (some c) g ≤ 1 := by
              rw [countActive, List.countP_cons]
              simp only [List.countP_nil]
              split <;> norm_num
            omega
          · have hz : countActive [(⟨freshId s, HEATMAP_COMPUTE, JobStatus.pending, cid, 0,
                ⌈(b.maxLat - b.minLat) / HEATMAP_GRID_STEP⌉ *
                ⌈(b.maxLng - b.minLng) / HEATMAP_GRID_STEP⌉,
                ⟨some b, HEATMAP_GRID_STEP, some 0⟩, none⟩ : JobRec)] (some c) g = 0 := by
              rw [countActive, List.countP_eq_zero]
              intro j hj
              rw [List.mem_singleton] at hj
              subst hj
              exact fun hc => hmatch hc
            rw [hz]
            have := h2 c g
            omega

/-- C5 (amended): in every jobs-table state reachable through the two
job-creation operations from the empty table, at most one active (pending or
running) job exists per (cityId, gridStep) combination for jobs that carry a
city id. (The auto-scheduled regional jobs carry no city id and are only
deduplicated by point-in-bounds overlap, so several of them can be active at
the same grid step — see the counterexample.) -/
theorem activeJob_uniqueness_amended (pois : List (ℚ × ℚ)) (ops : List SchedulerOp)
    (c : ℕ) (g : ℚ) :
    countActive (runOps pois ops) (some c) g ≤ 1 := by
  suffices h : ∀ s, (∀ j ∈ s, j.type = HEATMAP_COMPUTE) →
      (∀ c2 g2, countActive s (some c2) g2 ≤ 1) →
      (∀ j ∈ ops.foldl (applyOp pois) s, j.type = HEATMAP_COMPUTE) ∧
      (∀ c2 g2, countActive (ops.foldl (applyOp pois) s) (some c2) g2 ≤ 1) by
    exact (h [] (by simp) (fun c2 g2 => by simp [countActive])).2 c g
  induction ops with
  | nil => exact fun s ht hc => ⟨ht, hc⟩
  | cons op rest ih =>
      intro s ht hc
      rw [List.foldl_cons]
      exact ih (applyOp pois s op) (applyOp_types pois s op ht)
        (applyOp_countActive pois s op ht hc)

/-- A successful regional auto-schedule adds one active no-city job at the
global grid step. -/
theorem countActive_schedRegion_succ (pois : List (ℚ × ℚ)) (lat lng : ℚ)
    (s : List JobRec)
    (hov : hasOverlappingJob s lat lng = false)
    (hpoi : hasPoisInRegion pois lat lng (REGION_SIZE / 2) = true) :
    countActive (scheduleRegionalHeatmapJob pois lat lng s).2 none HEATMAP_GRID_STEP
      = countActive s none HEATMAP_GRID_STEP + 1 := by
  unfold scheduleRegionalHeatmapJob
  rw [hov, hpoi]
  simp only [Bool.false_eq_true, if_false, not_true, ite_false, ite_true]
  rw [countActive_append]
  have hone : countActive [(⟨freshId s, HEATMAP_COMPUTE, JobStatus.pending, none, 0,
        ⌈((lat + REGION_SIZE/2) - (lat - REGION_SIZE/2)) / HEATMAP_GRID_STEP⌉ *
        ⌈((lng + REGION_SIZE/2) - (lng - REGION_SIZE/2)) / HEATMAP_GRID_STEP⌉,
        ⟨some ⟨lat - REGION_SIZE/2, lat + REGION_SIZE/2,
               lng - REGION_SIZE/2, lng + REGION_SIZE/2⟩,
         HEATMAP_GRID_STEP, some 0⟩, none⟩ : JobRec)] none HEATMAP_GRID_STEP = 1 := by
    simp [countActive, activeCityStepB, List.countP_cons]
  rw [hone]

/-- C5, counterexample: two auto-scheduled regional jobs around the distant
points (0,0) and (10,10) — with a POI at each, and no overlap between the two
0.15-degree regions — are both created and both active with cityId null at
the same gridStep, so the "at most one active job per (cityId, gridStep)
combination" invariant fails on states reachable through the creation
operations. -/
theorem activeJob_uniqueness_counterexample :
    1 < countActive
        (runOps [((0 : ℚ), (0 : ℚ)), ((10 : ℚ), (10 : ℚ))]
          [SchedulerOp.schedRegion 0 0, SchedulerOp.schedRegion 10 10])
        none HEATMAP_GRID_STEP := by
  have hov1 : hasOverlappingJob [] 0 0 = false := rfl
  have hpoi1 : hasPoisInRegion [((0 : ℚ), (0 : ℚ)), ((10 : ℚ), (10 : ℚ))] 0 0
      (REGION_SIZE / 2) = true := by
    simp only [hasPoisInRegion, REGION_SIZE, List.any_cons, List.any_nil,
      Bool.or_eq_true, Bool.and_eq_true, decide_eq_true_eq]
    left
    norm_num
  have hpoi2 : hasPoisInRegion [((0 : ℚ), (0 : ℚ)), ((10 : ℚ), (10 : ℚ))] 10 10
      (REGION_SIZE / 2) = true := by
    simp only [hasPoisInRegion, REGION_SIZE, List.any_cons, List.any_nil,
      Bool.or_eq_true, Bool.and_eq_true, decide_eq_true_eq]
    right
    left
    norm_num
  have hov2 : hasOverlappingJob
      (scheduleRegionalHeatmapJob [((0 : ℚ), (0 : ℚ)), ((10 : ℚ), (10 : ℚ))] 0 0 []).2
      10 10 = false := by
    unfold scheduleRegionalHeatmapJob
    rw [hov1, hpoi1]
    simp only [Bool.false_eq_true, if_false, not_true, ite_false, ite_true]
    simp only [List.nil_append, hasOverlappingJob, List.any_cons, List.any_nil,
      Bool.or_eq_true, Bool.and_eq_true, decide_eq_true_eq, REGION_SIZE]
    norm_num
  show 1 < countActive
      (List.foldl (applyOp [((0 : ℚ), (0 : ℚ)), ((10 : ℚ), (10 : ℚ))]) []
        [SchedulerOp.schedRegion 0 0, SchedulerOp.schedRegion 10 10])
      none HEATMAP_GRID_STEP
  rw [List.foldl_cons, List.foldl_cons, List.foldl_nil]
  show 1 < countActive
      (scheduleRegionalHeatmapJob [((0 : ℚ), (0 : ℚ)), ((10 : ℚ), (10 : ℚ))] 10 10
        (scheduleRegionalHeatmapJob [((0 : ℚ), (0 : ℚ)), ((10 : ℚ), (10 : ℚ))] 0 0 []).2).2
      none HEATMAP_GRID_STEP
  rw [countActive_schedRegion_succ _ 10 10 _ hov2 hpoi2,
    countActive_schedRegion_succ _ 0 0 [] hov1 hpoi1]
  norm_num [countActive]

/-! Part D: the heatmap chunk processor, `processHeatmapChunk` of
`src/apps/web/lib/jobs/heatmap-processor.ts`. The batch calculator closure is
an environment parameter: a per-cell scorer that can throw (`Except`), and a
per-batch flag telling whether the batched upsert succeeds (transient database
failures). Timestamps (`computedAt`) are omitted. -/

/-- A row of the heat-cells table, keyed by (lat, lng, gridStep). -/
structure HeatCell where
  lat : ℚ
  lng : ℚ
  score : ℤ
  gridStep : ℚ
  cityId : Option ℕ
deriving DecidableEq

/-- Environment of one processor invocation. -/
structure ProcEnv where
  score : ℚ → ℚ → Except String ℚ
  upsertOk : ℕ → Bool

/-- Batch size of the inner loop, `BATCH_SIZE = 50`. -/
def BATCH_SIZE : ℕ := 50

/-- Upsert one cell: on a (lat, lng, gridStep) conflict update the score,
otherwise insert. -/
def upsertCell (cells : List HeatCell) (c : HeatCell) : List HeatCell :=
  if cells.any (fun o => decide (o.lat = c.lat) && decide (o.lng = c.lng)
      && decide (o.gridStep = c.gridStep)) then
    cells.map fun o =>
      if o.lat = c.lat ∧ o.lng = c.lng ∧ o.gridStep = c.gridStep then
        ⟨o.lat, o.lng, c.score, o.gridStep, o.cityId⟩
      else o
  else cells ++ [c]

/-- Batched upsert (`onConflictDoUpdate` over a list of values). -/
def upsertBatch (cells : List HeatCell) (vs : List HeatCell) : List HeatCell :=
  vs.foldl upsertCell cells

/-- Outcome of the batch loop of one chunk: processed count, error count, and
the cells that were successfully written. -/
structure BatchOutcome where
  processed : ℕ
  errors : ℕ
  written : List HeatCell
deriving DecidableEq

/-- The inner batch loop of `processHeatmapChunk` (lines 119-187): walk the
slice in batches of `BATCH_SIZE`, score each point catching per-cell errors,
and write each batch of successful results in one upsert, counting the whole
batch as errors if that upsert fails. -/
def processBatches (env : ProcEnv) (gridStep : ℚ) (cityId : Option ℕ) (bIdx : ℕ)
    (pts : List GridPoint) : BatchOutcome :=
  if hne : pts = [] then ⟨0, 0, []⟩
  else
    let results := (pts.take BATCH_SIZE).map fun p => (p, env.score p.lat p.lng)
    let successful := results.filterMap fun pr =>
      match pr.2 with
      | .ok sc => some (⟨pr.1.lat, pr.1.lng, round sc, gridStep, cityId⟩ : HeatCell)
      | .error _ => none
    let errCount := results.countP fun pr =>
      match pr.2 with
      | .error _ => true
      | .ok _ => false
    let rest := processBatches env gridStep cityId (bIdx + 1) (pts.drop BATCH_SIZE)
    if successful = [] then ⟨rest.processed, errCount + rest.errors, rest.written⟩
    else if env.upsertOk bIdx then
      ⟨successful.length + rest.processed, errCount + rest.errors,
        successful ++ rest.written⟩
    else ⟨rest.processed, errCount + successful.length + rest.errors, rest.written⟩
termination_by pts.length
decreasing_by
  simp only [List.length_drop, BATCH_SIZE]
  have hp : 0 < pts.length := List.length_pos.mpr hne
  omega

/-- Result record of one chunk invocation (`ProcessResult`). -/
structure ProcessResult where
  processed : ℕ
  errors : ℕ
  hasMore : Bool
  progress : ℤ
deriving DecidableEq

/-- Full outcome of one `processHeatmapChunk` call: the returned result, the
updated job row, the updated cells table, and the list of cells written. -/
structure ChunkOutcome where
  result : ProcessResult
  job : JobRec
  cells : List HeatCell
  written : List HeatCell

/-- The chunk processor `processHeatmapChunk` (lines 95-212): fail the job at
once when metadata has no bounds; otherwise regenerate the deterministic grid,
slice `[lastProcessedIndex, lastProcessedIndex + chunkSize)`, process it in
batches, advance `lastProcessedIndex` to the end of the slice, and mark the
job completed when the index reaches the grid length (`hasMore = false`).
In the source the progress division is floating point and is NaN on an empty
grid; here the rational division yields 0 in that case. -/
def processHeatmapChunk (env : ProcEnv) (job : JobRec) (chunkSize : ℕ)
    (cells : List HeatCell) : ChunkOutcome :=
  match job.metadata.bounds with
  | none =>
      { result := ⟨0, 1, false, 0⟩
        job := { job with
          status := JobStatus.failed
          error := some ("Job metadata missing bounds") }
        cells := cells
        written := [] }
  | some b =>
      let allPoints := generateGridPoints b job.metadata.gridStep
      let startIndex := job.metadata.lastProcessedIndex.getD 0
      let endIndex := min (startIndex + chunkSize) allPoints.length
      let bo := processBatches env job.metadata.gridStep job.cityId 0
        ((allPoints.drop startIndex).take (endIndex - startIndex))
      let hasMore := decide (endIndex < allPoints.length)
      let progress := round (((endIndex : ℚ) / (allPoints.length : ℚ)) * 100)
      { result := ⟨bo.processed, bo.errors, hasMore, progress⟩
        job := { job with
          progress := progress
          metadata := { job.metadata with lastProcessedIndex := some endIndex }
          status := if hasMore then job.status else JobStatus.completed }
        cells := upsertBatch cells bo.written
        written := bo.written }

/-- Every scored point of a batch is either written (ok) or counted as a
per-cell error. -/
theorem okCount_add_errCount (g : ℚ) (cid : Option ℕ)
    (results : List (GridPoint × Except String ℚ)) :
    (results.filterMap fun pr =>
      match pr.2 with
      | .ok sc => some (⟨pr.1.lat, pr.1.lng, round sc, g, cid⟩ : HeatCell)
      | .error _ => none).length
    + (results.countP fun pr =>
      match pr.2 with
      | .error _ => true
      | .ok _ => false)
    = results.length := by
  induction results with
  | nil => rfl
  | cons r rs ih =>
      obtain ⟨p, res⟩ := r
      cases res with
      | ok v =>
          simp only [List.filterMap_cons, List.countP_cons, List.length_cons,
            Bool.false_eq_true, if_false, eq_self_iff_true, if_true]
          omega
      | error e =>
          simp only [List.filterMap_cons, List.countP_cons, List.length_cons,
            Bool.false_eq_true, if_false, eq_self_iff_true, if_true]
          omega

/-- With a never-failing scorer and successful upserts, the batch loop
processes the whole slice in order: no errors, and the written cells are
exactly the slice's points with their rounded scores. -/
theorem processBatches_allOk (env : ProcEnv) (sc : ℚ → ℚ → ℚ)
    (hsc : ∀ p q, env.score p q = Except.ok (sc p q))
    (hup : ∀ i, env.upsertOk i = true) (g : ℚ) (cid : Option ℕ) :
    ∀ n (pts : List GridPoint), pts.length ≤ n → ∀ bIdx,
      processBatches env g cid bIdx pts
        = ⟨pts.length, 0,
           pts.map fun p => ⟨p.lat, p.lng, round (sc p.lat p.lng), g, cid⟩⟩ := by
  intro n
  induction n with
  | zero =>
      intro pts hl bIdx
      have hnil : pts = [] := List.eq_nil_of_length_eq_zero (by omega)
      subst hnil
      rw [processBatches]
      simp
  | succ n ih =>
      intro pts hl bIdx
      by_cases hpts : pts = []
      · subst hpts
        rw [processBatches]
        simp
      · rw [processBatches]
        rw [dif_neg hpts]
        simp only []
        have hres : (pts.take BATCH_SIZE).map (fun p => (p, env.score p.lat p.lng))
            = (pts.take BATCH_SIZE).map (fun p =>
                (p, (Except.ok (sc p.lat p.lng) : Except String ℚ))) :=
          List.map_congr_left fun p _ => by rw [hsc]
        rw [hres]
        have hcomp : ((fun pr : GridPoint × Except String ℚ =>
            match pr.2 with
            | .ok v => some (⟨pr.1.lat, pr.1.lng, round v, g, cid⟩ : HeatCell)
            | .error _ => none)
              ∘ (fun p : GridPoint =>
                (p, (Except.ok (sc p.lat p.lng) : Except String ℚ))))
            = some ∘ (fun p : GridPoint =>
                (⟨p.lat, p.lng, round (sc p.lat p.lng), g, cid⟩ : HeatCell)) := rfl
        rw [List.filterMap_map, hcomp, List.filterMap_eq_map]
        have hcp : ((pts.take BATCH_SIZE).map (fun p =>
              (p, (Except.ok (sc p.lat p.lng) : Except String ℚ)))).countP
            (fun pr =>
              match pr.2 with
              | .error _ => true
              | .ok _ => false) = 0 := by
          rw [List.countP_eq_zero]
          intro pr hpr
          rw [List.mem_map] at hpr
          obtain ⟨p, _, hpe⟩ := hpr
          subst hpe
          simp
        rw [hcp]
        have htne : (pts.take BATCH_SIZE).map (fun p =>
            (⟨p.lat, p.lng, round (sc p.lat p.lng), g, cid⟩ : HeatCell)) ≠ [] := by
          apply List.ne_nil_of_length_pos
          rw [List.length_map, List.length_take]
          have hp : 0 < pts.length := List.length_pos.mpr hpts
          simp only [BATCH_SIZE]
          omega
        rw [if_neg htne, if_pos (hup bIdx)]
        have hdl : (pts.drop BATCH_SIZE).length ≤ n := by
          simp only [List.length_drop]
          have hp : 0 < pts.length := List.length_pos.mpr hpts
          simp only [BATCH_SIZE]
          omega
        rw [ih (pts.drop BATCH_SIZE) hdl (bIdx + 1)]
        have hcat : (pts.take BATCH_SIZE).map (fun p =>
              (⟨p.lat, p.lng, round (sc p.lat p.lng), g, cid⟩ : HeatCell))
            ++ (pts.drop BATCH_SIZE).map (fun p =>
              (⟨p.lat, p.lng, round (sc p.lat p.lng), g, cid⟩ : HeatCell))
            = pts.map fun p => ⟨p.lat, p.lng, round (sc p.lat p.lng), g, cid⟩ := by
          rw [← List.map_append, List.take_append_drop]
        simp only [BatchOutcome.mk.injEq]
        refine ⟨?_, ?_, hcat⟩
        · rw [List.length_map, List.length_take, List.length_drop]
          omega
        · trivial

/-- For every environment — cells may throw, upserts may fail — the batch
loop accounts for every point of the slice: processed + errors equals the
slice length. -/
theorem processBatches_total (env : ProcEnv) (g : ℚ) (cid : Option ℕ) :
    ∀ n (pts : List GridPoint), pts.length ≤ n → ∀ bIdx,
      (processBatches env g cid bIdx pts).processed
        + (processBatches env g cid bIdx pts).errors = pts.length := by
  intro n
  induction n with
  | zero =>
      intro pts hl bIdx
      have hnil : pts = [] := List.eq_nil_of_length_eq_zero (by omega)
      subst hnil
      rw [processBatches]
      simp
  | succ n ih =>
      intro pts hl bIdx
      by_cases hpts : pts = []
      · subst hpts
        rw [processBatches]
        simp
      · have hoc := okCount_add_errCount g cid
          ((pts.take BATCH_SIZE).map fun p => (p, env.score p.lat p.lng))
        rw [List.length_map] at hoc
        have hdl : (pts.drop BATCH_SIZE).length ≤ n := by
          simp only [List.length_drop]
          have hp : 0 < pts.length := List.length_pos.mpr hpts
          simp only [BATCH_SIZE]
          omega
        have hrest := ih (pts.drop BATCH_SIZE) hdl (bIdx + 1)
        have hlens : (pts.take BATCH_SIZE).length + (pts.drop BATCH_SIZE).length
            = pts.length := by
          rw [List.length_take, List.length_drop]
          omega
        rw [processBatches, dif_neg hpts]
        simp only []
        split_ifs with hemp hok
        · simp only []
          rw [hemp] at hoc
          simp only [List.length_nil] at hoc
          omega
        · simp only []
          omega
        · simp only []
          omega

/-- C7: on a job with bounds and a persisted index n, a chunk call with a
never-failing scorer and working upserts writes exactly the grid points at
indices [n, min(n+chunkSize, gridLength)) of the deterministic grid — in
order, none below n recomputed, none of the slice skipped — advances the
persisted index to the end of the slice, and marks the job completed exactly
when that index reaches the grid length, reporting hasMore otherwise. -/
theorem processHeatmapChunk_slice (env : ProcEnv) (job : JobRec) (chunkSize : ℕ)
    (cells : List HeatCell) (b : Bounds) (sc : ℚ → ℚ → ℚ)
    (pts : List GridPoint) (n e : ℕ)
    (hb : job.metadata.bounds = some b)
    (hsc : ∀ p q, env.score p q = Except.ok (sc p q))
    (hup : ∀ i, env.upsertOk i = true)
    (hpts : pts = generateGridPoints b job.metadata.gridStep)
    (hn : n = job.metadata.lastProcessedIndex.getD 0)
    (he : e = min (n + chunkSize) pts.length) :
    (processHeatmapChunk env job chunkSize cells).written
        = ((pts.drop n).take (e - n)).map
            (fun p => ⟨p.lat, p.lng, round (sc p.lat p.lng),
              job.metadata.gridStep, job.cityId⟩) ∧
    (processHeatmapChunk env job chunkSize cells).result.processed = e - n ∧
    (processHeatmapChunk env job chunkSize cells).result.errors = 0 ∧
    (processHeatmapChunk env job chunkSize cells).job.metadata.lastProcessedIndex
        = some e ∧
    ((processHeatmapChunk env job chunkSize cells).job.status
        = if e < pts.length then job.status else JobStatus.completed) ∧
    ((processHeatmapChunk env job chunkSize cells).result.hasMore = true
        ↔ e < pts.length) := by
  subst he hn hpts
  unfold processHeatmapChunk
  rw [hb]
  simp only []
  rw [processBatches_allOk env sc hsc hup job.metadata.gridStep job.cityId _ _ le_rfl 0]
  dsimp only
  refine ⟨?_, ?_, ?_, ?_, ?_, ?_⟩
  · trivial
  · rw [List.length_take, List.length_drop]
    omega
  · rfl
  · trivial
  · by_cases hlt : min (job.metadata.lastProcessedIndex.getD 0 + chunkSize)
        (generateGridPoints b job.metadata.gridStep).length
        < (generateGridPoints b job.metadata.gridStep).length
    · simp [hlt]
    · simp [hlt]
  · simp

/-- Concrete one-cell job used by the processor witnesses: bounds collapse to
the single origin point at the program's grid step. -/
def slcJob : JobRec :=
  ⟨0, HEATMAP_COMPUTE, JobStatus.running, none, 0, 1,
    ⟨some ⟨0, 0, 0, 0⟩, HEATMAP_GRID_STEP, some 0⟩, none⟩

/-- C7 witness: the slice theorem applied to the one-cell job with a constant
scorer, projected to the persisted-index and error-count components. -/
theorem processHeatmapChunk_slice_witness :
    (processHeatmapChunk ⟨fun _ _ => Except.ok 7, fun _ => true⟩ slcJob 5
        []).job.metadata.lastProcessedIndex
      = some (min (0 + 5)
          (generateGridPoints ⟨0, 0, 0, 0⟩ slcJob.metadata.gridStep).length) ∧
    (processHeatmapChunk ⟨fun _ _ => Except.ok 7, fun _ => true⟩ slcJob 5
        []).result.errors = 0 :=
  have h := processHeatmapChunk_slice ⟨fun _ _ => Except.ok 7, fun _ => true⟩
    slcJob 5 [] ⟨0, 0, 0, 0⟩ (fun _ _ => 7) _ _ _ rfl (fun _ _ => rfl)
    (fun _ => rfl) rfl rfl rfl
  ⟨h.2.2.2.1, h.2.2.1⟩

/-- C8: a job whose metadata lacks bounds is immediately marked failed with
the malformed-metadata error; the call returns zero processed cells, one
error, no further work (`hasMore = false`), and performs no grid generation,
scoring or persistence — the cells table is untouched and nothing is
written. -/
theorem processHeatmapChunk_missing_bounds (env : ProcEnv) (job : JobRec)
    (chunkSize : ℕ) (cells : List HeatCell)
    (hb : job.metadata.bounds = none) :
    processHeatmapChunk env job chunkSize cells
      = { result := ⟨0, 1, false, 0⟩
          job := { job with
            status := JobStatus.failed
            error := some ("Job metadata missing bounds") }
          cells := cells
          written := [] } := by
  unfold processHeatmapChunk
  rw [hb]

/-- Concrete boundsless job for the C8 witness. -/
def noBoundsJob : JobRec :=
  ⟨3, HEATMAP_COMPUTE, JobStatus.running, none, 0, 0,
    ⟨none, HEATMAP_GRID_STEP, some 0⟩, none⟩

/-- C8 witness: the missing-bounds theorem at a concrete job. -/
theorem processHeatmapChunk_missing_bounds_witness :
    processHeatmapChunk ⟨fun _ _ => Except.ok 0, fun _ => true⟩ noBoundsJob 5 []
      = { result := ⟨0, 1, false, 0⟩
          job := { noBoundsJob with
            status := JobStatus.failed
            error := some ("Job metadata missing bounds") }
          cells := []
          written := [] } :=
  processHeatmapChunk_missing_bounds ⟨fun _ _ => Except.ok 0, fun _ => true⟩
    noBoundsJob 5 [] rfl

/-- C10 (implicit): for every environment — even when every cell of the chunk
errors or the batched upserts all fail — a chunk call on a job with bounds
advances `lastProcessedIndex` to min(start+chunkSize, gridLength)
unconditionally, and every cell of the slice is accounted as either processed
or an error, so failed cells are counted but never revisited by later
chunks. -/
theorem processHeatmapChunk_advances_unconditionally (env : ProcEnv)
    (job : JobRec) (chunkSize : ℕ) (cells : List HeatCell) (b : Bounds)
    (pts : List GridPoint) (n e : ℕ)
    (hb : job.metadata.bounds = some b)
    (hpts : pts = generateGridPoints b job.metadata.gridStep)
    (hn : n = job.metadata.lastProcessedIndex.getD 0)
    (he : e = min (n + chunkSize) pts.length) :
    (processHeatmapChunk env job chunkSize cells).job.metadata.lastProcessedIndex
        = some e ∧
    (processHeatmapChunk env job chunkSize cells).result.processed
      + (processHeatmapChunk env job chunkSize cells).result.errors = e - n := by
  subst he hn hpts
  unfold processHeatmapChunk
  rw [hb]
  simp only []
  constructor
  · trivial
  · dsimp only
    rw [processBatches_total env job.metadata.gridStep job.cityId _ _ le_rfl 0]
    rw [List.length_take, List.length_drop]
    omega

/-- C10 witness: the advance theorem on the one-cell job under an environment
whose scorer always throws and whose upserts always fail. -/
theorem processHeatmapChunk_advances_unconditionally_witness :
    (processHeatmapChunk ⟨fun _ _ => Except.error ("boom"), fun _ => false⟩
        slcJob 5 []).job.metadata.lastProcessedIndex
      = some (min (0 + 5)
          (generateGridPoints ⟨0, 0, 0, 0⟩ slcJob.metadata.gridStep).length) ∧
    (processHeatmapChunk ⟨fun _ _ => Except.error ("boom"), fun _ => false⟩
        slcJob 5 []).result.processed
      + (processHeatmapChunk ⟨fun _ _ => Except.error ("boom"), fun _ => false⟩
        slcJob 5 []).result.errors
      = min (0 + 5)
          (generateGridPoints ⟨0, 0, 0, 0⟩ slcJob.metadata.gridStep).length - 0 :=
  processHeatmapChunk_advances_unconditionally
    ⟨fun _ _ => Except.error ("boom"), fun _ => false⟩ slcJob 5 [] ⟨0, 0, 0, 0⟩
    _ _ _ rfl rfl rfl rfl
